import Mathlib

/-!
Shallow embedding of the intelligent-ambulance dispatch core
(triage scoring, hospital routing, acceptance state machine),
translated from `src/clite/hospital/app.py` and `src/clite/hospital_view.py`.

Numeric vitals are modelled as rationals; Python `round` (half-to-even)
and `int()` truncation are modelled explicitly.  Randomness
(`random.uniform`) is modelled by oracle parameters, and wall-clock time
labels by minute offsets.
-/

/-- A raw vitals field as received by the server: the empty string,
a string that `float()` parses to a number, or a non-empty string that
`float()` rejects (such as the pad sentinel "N/A"). -/
inductive VStr where
  | empty : VStr
  | num : ℚ → VStr
  | other : String → VStr
deriving DecidableEq

/-- Python `int()` / float-to-int conversion: truncation toward zero. -/
def ratTrunc (q : ℚ) : ℤ :=
  if 0 ≤ q then ⌊q⌋ else ⌈q⌉

/-- Python `round` on a rational: round half to even. -/
def pyRound (q : ℚ) : ℤ :=
  let f := ⌊q⌋
  let r := q - f
  if r < 1/2 then f
  else if 1/2 < r then f + 1
  else if f % 2 = 0 then f else f + 1

/-- Python `round(q, 1)`: round half to even at one decimal place. -/
def pyRound1 (q : ℚ) : ℚ :=
  (pyRound (10 * q) : ℚ) / 10

/-- Does the character list start with the given needle (Python string
prefix test used to implement substring containment)? -/
def listStartsWith : List Char → List Char → Bool
  | [], _ => true
  | _ :: _, [] => false
  | a :: as, b :: bs => a == b && listStartsWith as bs

/-- Python `needle in hay` substring containment on character lists. -/
def hasSubstr (needle : List Char) : List Char → Bool
  | [] => needle.isEmpty
  | c :: rest => listStartsWith needle (c :: rest) || hasSubstr needle rest

/-- Python `str.lower()` restricted to the ASCII data appearing here. -/
def lowerChars (s : String) : List Char := s.data.map Char.toLower

/-- Model of `float(vitals[i])` with no default: any IndexError (short list),
empty string, or parse failure raises, modelled as `none`.  Used by
`calculate_mews_score` and `generate_vitals_trend`. -/
def getFloatField (l : List VStr) (i : ℕ) : Option ℚ :=
  match l[i]? with
  | some (VStr.num q) => some q
  | _ => none

/-- Model of the expression `float(vitals_list[i]) if len(vitals_list) > i
and vitals_list[i] != "" else default` in `analyze_vitals_from_client`: a short list or an empty
string yields the default; a non-numeric non-empty string raises (`none`). -/
def getField (l : List VStr) (i : ℕ) (d : ℚ) : Option ℚ :=
  match l[i]? with
  | none => some d
  | some VStr.empty => some d
  | some (VStr.num q) => some q
  | some (VStr.other _) => none

/-- The numeric vitals produced by the parsing block of
`analyze_vitals_from_client`. -/
structure ParsedVitals where
  age : ℤ
  bp_sys : ℚ
  hr : ℚ
  o2 : ℚ
  resp : ℚ
  temp : ℚ
deriving DecidableEq

/-- The try-block of `analyze_vitals_from_client`: parse the six used
fields (age, bp_sys, hr, o2, resp, temp) with per-field defaults; any
parse failure aborts the whole block. -/
def parseVitals (l : List VStr) : Option ParsedVitals :=
  match getField l 0 40, getField l 1 120, getField l 3 80,
        getField l 4 98, getField l 6 16, getField l 5 (366/10) with
  | some a, some bp, some hr, some o2, some resp, some temp =>
      some ⟨ratTrunc a, bp, hr, o2, resp, temp⟩
  | _, _, _, _, _, _ => none

/-- Respiratory-rate contribution of the MEWS-like score. -/
def respScore (resp : ℚ) : ℕ :=
  if resp < 9 ∨ 25 < resp then 3
  else if 20 < resp then 2
  else if 15 < resp then 1
  else 0

/-- Heart-rate contribution of the MEWS-like score. -/
def hrScore (hr : ℚ) : ℕ :=
  if hr < 40 ∨ 130 < hr then 3
  else if 110 < hr then 2
  else if hr < 50 ∨ 90 < hr then 1
  else 0

/-- Systolic-BP contribution of the MEWS-like score. -/
def bpScore (bp_sys : ℚ) : ℕ :=
  if bp_sys < 70 ∨ 200 < bp_sys then 3
  else if bp_sys < 90 then 2
  else if 180 < bp_sys then 1
  else 0

/-- SpO2 contribution of the MEWS-like score. -/
def o2Score (o2 : ℚ) : ℕ :=
  if o2 < 90 then 2 else 0

/-- The four-vital score shared by `calculate_mews_score` and the dispatch
criticality decision. -/
def vitalScore (resp hr bp_sys o2 : ℚ) : ℕ :=
  respScore resp + hrScore hr + bpScore bp_sys + o2Score o2

/-- Model of `calculate_mews_score(vitals)`: parses indices 1, 3, 6, 4 with
`float()`; any exception yields 0; otherwise the four-vital score. -/
def calculate_mews_score (l : List VStr) : ℕ :=
  match getFloatField l 1, getFloatField l 3, getFloatField l 6, getFloatField l 4 with
  | some bp_sys, some hr, some resp_rate, some o2 =>
      vitalScore resp_rate hr bp_sys o2
  | _, _, _, _ => 0

/-- The fixed 13-entry danger keyword list of
`analyze_vitals_from_client`. -/
def dangerous_keywords : List String :=
  ["unconscious", "bleeding", "chest pain", "respiratory arrest",
   "no pulse", "collapse", "seizure", "severe",
   "breathing difficulty", "fracture", "trauma", "stroke", "severe pain"]

/-- The keyword-boost loop: +2 per keyword contained in the lowercased
symptom text, not deduplicated. -/
def symptomScore (sym : List Char) : ℕ :=
  dangerous_keywords.foldl
    (fun acc kw => if hasSubstr kw.data sym then acc + 2 else acc) 0

/-- Model of `analyze_vitals_from_client(vitals_list, symptoms_str)`: returns
(prediction, is_critical).  Parse failure returns ("UNDETERMINED", false);
otherwise thresholds on vital score plus symptom boost. -/
def analyze_vitals_from_client (l : List VStr) (symptoms_str : String) :
    String × Bool :=
  match parseVitals l with
  | none => ("UNDETERMINED", false)
  | some pv =>
      let score := vitalScore pv.resp pv.hr pv.bp_sys pv.o2
      let symptom_score := symptomScore (lowerChars symptoms_str)
      let total_risk := score + symptom_score
      if 6 ≤ total_risk then
        ("Likely Critical — Immediate attention advised", true)
      else if 3 ≤ total_risk then
        ("Potentially Serious — Monitor and expedite transport", true)
      else
        ("Stable / Non-critical", false)

/-- The 7-field padding fix in `analyze_data`: a vitals list shorter than
7 entries is extended with the sentinel string "N/A". -/
def padTo7 (l : List VStr) : List VStr :=
  if l.length < 7 then l ++ List.replicate (7 - l.length) (VStr.other "N/A")
  else l

/-- One entry of the hospital directory (`HOSPITAL_DATA`), with the
fields the routing logic reads. -/
structure Hospital where
  name : String
  address : String
  lat_lon : String
  specialty : String
  distance_km : ℚ
  traffic_factor : ℚ
deriving DecidableEq

/-- The routing cost key, distance_km times traffic_factor. -/
def routeCost (h : Hospital) : ℚ := h.distance_km * h.traffic_factor

/-- The iteration step of Python `min(iterable, key=routeCost)`: keep the
current best, replacing it only on a strictly smaller key. -/
def minFold (b : Hospital) (t : List Hospital) : Hospital :=
  t.foldl (fun b x => if routeCost x < routeCost b then x else b) b

/-- Python `min(iterable, key=routeCost)`: the first minimal element
wins; `none` on an empty list (Python raises ValueError there). -/
def pyMin : List Hospital → Option Hospital
  | [] => none
  | h :: t => some (minFold h t)

/-- ETA computation shared by `analyze_data` and `suggest_alternative`:
`speed_km_min = 0.67; raw_time_min = distance_km / speed_km_min;
simulated_eta = round(raw_time_min * traffic_factor)`. -/
def routeEta (h : Hospital) : ℤ :=
  pyRound (h.distance_km / (67/100) * h.traffic_factor)

/-- The fields of a persisted `Case` row that the re-routing and
acceptance logic reads or writes. -/
structure CaseRec where
  hospital_name : Option String
  hospital_specialty : Option String
  distance_km : Option ℚ
  simulated_eta_min : Option ℤ
  acceptance_status : Option String
  rejected_history : List String
deriving DecidableEq

/-- Outcome of a `suggest_alternative` call: 404 no remaining hospital,
or 200 with the newly selected hospital and its simulated ETA. -/
inductive SAResult where
  | noRemaining : SAResult
  | ok : Hospital → ℤ → SAResult
deriving DecidableEq

/-- The history update of `suggest_alternative`:
`if rejected_hospital_name and rejected_hospital_name not in history:
history.append(rejected_hospital_name)` — a missing key or an empty
(falsy) name appends nothing. -/
def saHistory (c : CaseRec) (current_hospital : Option String) : List String :=
  match current_hospital with
  | some n =>
      if n = "" then c.rejected_history
      else if n ∈ c.rejected_history then c.rejected_history
      else c.rejected_history ++ [n]
  | none => c.rejected_history

/-- Model of `suggest_alternative` on an existing case: append the just-rejected
hospital (if given and new) to the history, filter the full directory by
name against that history (no specialty filter), pick the cost-minimal
remainder, recompute the ETA, and persist; on an empty remainder return
404 without touching the record. -/
def suggest_alternative (dir : List Hospital) (c : CaseRec)
    (current_hospital : Option String) : SAResult × CaseRec :=
  let history := saHistory c current_hospital
  let remaining := dir.filter (fun h => h.name ∉ history)
  match pyMin remaining with
  | none => (SAResult.noRemaining, c)
  | some best =>
      let eta := routeEta best
      (SAResult.ok best eta,
       { c with
          hospital_name := some best.name
          hospital_specialty := some best.specialty
          distance_km := some best.distance_km
          simulated_eta_min := some eta
          acceptance_status := some "AWAITING RESPONSE"
          rejected_history := history })

/-- The case record state reached after a sequence of
`suggest_alternative` calls, each carrying its `current_hospital` field. -/
def runSA (dir : List Hospital) (c : CaseRec) : List (Option String) → CaseRec
  | [] => c
  | cur :: rest => runSA dir (suggest_alternative dir c cur).2 rest

/-- A persisted record store keyed by integer case id. -/
def Store := List (ℕ × CaseRec)

/-- Keyed lookup in a record store. -/
def storeLookup (s : Store) (caseId : ℕ) : Option CaseRec :=
  match s with
  | [] => none
  | p :: rest => if p.1 = caseId then some p.2 else storeLookup rest caseId

/-- Write `acceptance_status` of the record with the given id. -/
def setStatus (s : Store) (caseId : ℕ) (st : Option String) : Store :=
  s.map (fun p =>
    if p.1 = caseId then (p.1, { p.2 with acceptance_status := st }) else p)

/-- Ambulance-side `POST /api/receive_hospital_update/<case_id>`:
look the case up, store the posted status value verbatim (no validation,
`none` when the field is absent), and return 200; 404 when the case id
is unknown. -/
def receive_hospital_update (astore : Store) (caseId : ℕ)
    (status : Option String) : ℕ × Store :=
  match storeLookup astore caseId with
  | none => (404, astore)
  | some _ => (200, setStatus astore caseId status)

/-- The status whitelist of `update_acceptance`. -/
def validStatus (status : Option String) : Bool :=
  match status with
  | some s => ["ACCEPTED", "REJECTED", "ON HOLD"].contains s
  | none => false

/-- Hospital-side `POST /api/update_acceptance/<case_id>`: 400 on any
status outside the whitelist, 404 on an unknown case id, otherwise commit
the status locally, then best-effort push it to the ambulance server
(`pushOk` models whether the HTTP push goes through; a failed push is
caught and logged, never undoing the local commit), and return 200.
Result: (HTTP code, hospital-side store, ambulance-side store). -/
def update_acceptance (hstore : Store) (astore : Store) (caseId : ℕ)
    (status : Option String) (pushOk : Bool) : ℕ × Store × Store :=
  if ¬ validStatus status then (400, hstore, astore)
  else
    match storeLookup hstore caseId with
    | none => (404, hstore, astore)
    | some _ =>
        let hstore' := setStatus hstore caseId status
        let astore' :=
          if pushOk then (receive_hospital_update astore caseId status).2
          else astore
        (200, hstore', astore')

/-- The simulated vitals trend of `generate_vitals_trend`, with wall
clock labels abstracted to minute offsets before "now". -/
structure Trend where
  time_offsets : List ℕ
  hr_trend : List ℤ
  bp_sys_trend : List ℤ
  o2_trend : List ℚ
deriving DecidableEq

/-- Model of `generate_vitals_trend(vitals_list)`: parse hr, systolic BP and SpO2
(`float`, any failure returns the empty JSON object, modelled as `none`);
then emit 5 samples at 20, 15, 10, 5, 0 minutes before now.  The
`random.uniform(-4,4)`, `(-5,5)`, `(-1,1)` draws of the first 4 samples
are modelled by the oracle parameters `nHr`, `nBp`, `nO2`; the 5th sample
is `int(hr_base), int(bp_sys_base), float(o2_base)`. -/
def generate_vitals_trend (l : List VStr) (nHr nBp nO2 : Fin 4 → ℚ) :
    Option Trend :=
  match getFloatField l 3, getFloatField l 1, getFloatField l 4 with
  | some hr_base, some bp_sys_base, some o2_base =>
      some
        { time_offsets := [20, 15, 10, 5, 0]
          hr_trend :=
            [pyRound (hr_base + nHr 0), pyRound (hr_base + nHr 1),
             pyRound (hr_base + nHr 2), pyRound (hr_base + nHr 3),
             ratTrunc hr_base]
          bp_sys_trend :=
            [pyRound (bp_sys_base + nBp 0), pyRound (bp_sys_base + nBp 1),
             pyRound (bp_sys_base + nBp 2), pyRound (bp_sys_base + nBp 3),
             ratTrunc bp_sys_base]
          o2_trend :=
            [pyRound1 (o2_base + nO2 0), pyRound1 (o2_base + nO2 1),
             pyRound1 (o2_base + nO2 2), pyRound1 (o2_base + nO2 3),
             o2_base] }
  | _, _, _ => none

/-- Does the lowercased symptom text contain the keyword (one iteration
of the keyword test in the boost loop)? -/
def matchesKw (kw : String) (s : String) : Bool :=
  hasSubstr kw.data (lowerChars s)

/-- Severity rank of an `analyze_vitals_from_client` result: 2 for the
critical prediction, 1 for the serious one, 0 otherwise (stable or
undetermined).  Used to state that a prediction never downgrades. -/
def tier (r : String × Bool) : ℕ :=
  if r.1 = "Likely Critical — Immediate attention advised" then 2
  else if r.1 = "Potentially Serious — Monitor and expedite transport" then 1
  else 0

/-! Concrete instances used by witnesses and counterexamples. -/

/-- A zero noise oracle (one admissible draw of `random.uniform`). -/
def n0 : Fin 4 → ℚ := fun _ => 0

/-- The example vitals record of the spec, with values 40, 120, 80, 75, 98, 98.6, 16. -/
def vitalsC6 : List VStr :=
  [VStr.num 40, VStr.num 120, VStr.num 80, VStr.num 75, VStr.num 98,
   VStr.num (493/5), VStr.num 16]

/-- A vitals record whose heart-rate field is the non-integral "80.5". -/
def vitalsC9 : List VStr :=
  [VStr.num 40, VStr.num 120, VStr.num 80, VStr.num (161/2), VStr.num 98,
   VStr.num 99, VStr.num 16]

/-- A well-formed 7-field vitals record with integral values. -/
def vitalsW : List VStr :=
  [VStr.num 40, VStr.num 120, VStr.num 80, VStr.num 75, VStr.num 98,
   VStr.num 99, VStr.num 16]

/-- A small concrete hospital. -/
def hAlpha : Hospital :=
  { name := "Alpha", address := "1 A Rd", lat_lon := "13.0,77.6",
    specialty := "General Trauma & ER", distance_km := 4, traffic_factor := 67/100 }

/-- A second concrete hospital, with a larger routing cost. -/
def hBeta : Hospital :=
  { name := "Beta", address := "2 B Rd", lat_lon := "13.1,77.5",
    specialty := "Oncology ONLY", distance_km := 5, traffic_factor := 67/100 }

/-- A third concrete hospital, with the largest routing cost. -/
def hGamma : Hospital :=
  { name := "Gamma", address := "3 C Rd", lat_lon := "13.2,77.7",
    specialty := "Critical Care & Neuro", distance_km := 10, traffic_factor := 67/100 }

/-- A two-hospital directory. -/
def dir2 : List Hospital := [hAlpha, hBeta]

/-- A three-hospital directory. -/
def dir3 : List Hospital := [hAlpha, hBeta, hGamma]

/-- A freshly created case (empty rejection history). -/
def caseEmpty : CaseRec :=
  { hospital_name := none, hospital_specialty := none, distance_km := none,
    simulated_eta_min := none, acceptance_status := some "AWAITING RESPONSE",
    rejected_history := [] }

/-- A case currently routed to Beta whose history already holds Alpha. -/
def caseRejAlpha : CaseRec :=
  { hospital_name := some "Beta", hospital_specialty := none, distance_km := none,
    simulated_eta_min := none, acceptance_status := some "AWAITING RESPONSE",
    rejected_history := ["Alpha"] }

/-! Helper lemmas. -/

/-- Unfolding equation for `pyRound`. -/
lemma pyRound_def (q : ℚ) : pyRound q =
    if q - ⌊q⌋ < 1/2 then ⌊q⌋
    else if 1/2 < q - ⌊q⌋ then ⌊q⌋ + 1
    else if ⌊q⌋ % 2 = 0 then ⌊q⌋ else ⌊q⌋ + 1 := rfl

/-- Function `pyRound` agrees with the floor below the half point. -/
lemma pyRound_eq_of_lt_half (n : ℤ) (q : ℚ) (h1 : (n : ℚ) ≤ q)
    (h2 : q < n + 1/2) : pyRound q = n := by
  have hf : ⌊q⌋ = n := Int.floor_eq_iff.mpr ⟨h1, by linarith⟩
  rw [pyRound_def, hf]
  have hlt : q - (n : ℚ) < 1/2 := by linarith
  rw [if_pos hlt]

/-- Function `pyRound` rounds up above the half point. -/
lemma pyRound_eq_of_gt_half (n : ℤ) (q : ℚ) (h1 : (n : ℚ) + 1/2 < q)
    (h2 : q ≤ n + 1) : pyRound q = n + 1 := by
  rcases eq_or_lt_of_le h2 with he | hlt
  · have hf : ⌊q⌋ = n + 1 :=
      Int.floor_eq_iff.mpr ⟨by push_cast; linarith, by push_cast; linarith⟩
    rw [pyRound_def, hf]
    have hlt : q - ((n + 1 : ℤ) : ℚ) < 1/2 := by push_cast; linarith
    rw [if_pos hlt]
  · have hf : ⌊q⌋ = n :=
      Int.floor_eq_iff.mpr ⟨by linarith, by linarith⟩
    rw [pyRound_def, hf]
    have hr1 : ¬ (q - ((n : ℤ) : ℚ) < 1/2) := by linarith
    have hr2 : 1/2 < q - ((n : ℤ) : ℚ) := by linarith
    rw [if_neg hr1, if_pos hr2]

/-- Function `pyRound` sends an exact half to the even neighbour (even case). -/
lemma pyRound_eq_of_half_even (n : ℤ) (q : ℚ) (h : q = (n : ℚ) + 1/2)
    (he : n % 2 = 0) : pyRound q = n := by
  have hf : ⌊q⌋ = n :=
    Int.floor_eq_iff.mpr ⟨by rw [h]; linarith, by rw [h]; linarith⟩
  rw [pyRound_def, hf]
  have h1 : ¬ (q - ((n : ℤ) : ℚ) < 1/2) := by rw [h]; simp
  have h2 : ¬ (1/2 < q - ((n : ℤ) : ℚ)) := by rw [h]; simp
  rw [if_neg h1, if_neg h2, if_pos he]

/-- Function `pyRound` is the identity on integers. -/
lemma pyRound_intCast (m : ℤ) : pyRound (m : ℚ) = m :=
  pyRound_eq_of_lt_half m _ le_rfl (by linarith)

/-- Function `pyRound` moves its argument by at most one half. -/
lemma abs_pyRound_sub (q : ℚ) : |(pyRound q : ℚ) - q| ≤ 1/2 := by
  have h1 : (⌊q⌋ : ℚ) ≤ q := Int.floor_le q
  have h2 : q < ⌊q⌋ + 1 := Int.lt_floor_add_one q
  rw [pyRound_def]
  split_ifs with ha hb hc <;> rw [abs_le] <;> push_cast <;> constructor <;> linarith

/-- Function `pyRound1` moves its argument by at most one twentieth. -/
lemma abs_pyRound1_sub (q : ℚ) : |pyRound1 q - q| ≤ 1/20 := by
  have h := abs_pyRound_sub (10 * q)
  unfold pyRound1
  have heq : (pyRound (10 * q) : ℚ) / 10 - q = ((pyRound (10 * q) : ℚ) - 10 * q) / 10 := by
    ring
  rw [heq, abs_div, show |(10 : ℚ)| = 10 by norm_num]
  linarith

/-- Function `ratTrunc` is the identity on integers. -/
lemma ratTrunc_intCast (m : ℤ) : ratTrunc (m : ℚ) = m := by
  unfold ratTrunc
  split_ifs <;> simp

/-- Prefix tests compose: a prefix of a prefix is a prefix. -/
lemma listStartsWith_trans : ∀ (n1 n2 hay : List Char),
    listStartsWith n1 n2 = true → listStartsWith n2 hay = true →
    listStartsWith n1 hay = true := by
  intro n1
  induction n1 with
  | nil => intro n2 hay _ _; rfl
  | cons a as ih =>
      intro n2 hay h12 h2h
      cases n2 with
      | nil => simp [listStartsWith] at h12
      | cons b bs =>
          cases hay with
          | nil => simp [listStartsWith] at h2h
          | cons c cs =>
              simp only [listStartsWith, Bool.and_eq_true, beq_iff_eq] at h12 h2h ⊢
              obtain ⟨hab, h12'⟩ := h12
              obtain ⟨hbc, h2h'⟩ := h2h
              exact ⟨hab.trans hbc, ih bs cs h12' h2h'⟩

/-- If a needle starts with a shorter needle, any haystack containing
the longer one contains the shorter one. -/
lemma hasSubstr_of_listStartsWith (n1 n2 : List Char)
    (h12 : listStartsWith n1 n2 = true) :
    ∀ hay : List Char, hasSubstr n2 hay = true → hasSubstr n1 hay = true := by
  intro hay
  induction hay with
  | nil =>
      intro h
      simp only [hasSubstr, List.isEmpty_iff] at h ⊢
      subst h
      cases n1 with
      | nil => rfl
      | cons a as => simp [listStartsWith] at h12
  | cons c rest ih =>
      intro h
      simp only [hasSubstr, Bool.or_eq_true] at h ⊢
      rcases h with h | h
      · exact Or.inl (listStartsWith_trans n1 n2 (c :: rest) h12 h)
      · exact Or.inr (ih h)

/-- Two distinct members force a list length of at least two. -/
lemma two_le_length_of_two_mem {α : Type} {a b : α} :
    ∀ {l : List α}, a ∈ l → b ∈ l → a ≠ b → 2 ≤ l.length := by
  intro l
  induction l with
  | nil => intro ha; simp at ha
  | cons x t ih =>
      intro ha hb hab
      rcases List.mem_cons.mp ha with rfl | hat
      · rcases List.mem_cons.mp hb with rfl | hbt
        · exact absurd rfl hab
        · have ht : t ≠ [] := by rintro rfl; simp at hbt
          have := List.length_pos.mpr ht
          simp only [List.length_cons]
          omega
      · have ht : t ≠ [] := by rintro rfl; simp at hat
        have := List.length_pos.mpr ht
        simp only [List.length_cons]
        omega

/-- Two distinct satisfying members force a `countP` of at least two. -/
lemma two_le_countP_of_two_mem {α : Type} {a b : α} {l : List α}
    {p : α → Bool} (ha : a ∈ l) (hb : b ∈ l) (hab : a ≠ b)
    (hpa : p a = true) (hpb : p b = true) : 2 ≤ l.countP p := by
  rw [List.countP_eq_length_filter]
  exact two_le_length_of_two_mem (List.mem_filter.mpr ⟨ha, hpa⟩)
    (List.mem_filter.mpr ⟨hb, hpb⟩) hab

/-- A strictly larger matched set strictly increases `countP`. -/
lemma countP_succ_le_of_extra {α : Type} {l : List α} {p q : α → Bool}
    (hpq : ∀ a ∈ l, p a = true → q a = true) {b : α} (hb : b ∈ l)
    (hqb : q b = true) (hpb : p b = false) :
    l.countP p + 1 ≤ l.countP q := by
  induction l with
  | nil => simp at hb
  | cons x t ih =>
      rcases List.mem_cons.mp hb with rfl | hbt
      · have hmono : t.countP p ≤ t.countP q :=
          List.countP_mono_left (fun a hat hpa => hpq a (List.mem_cons_of_mem _ hat) hpa)
        simp [List.countP_cons, hqb, hpb]
        omega
      · have hx : p x = true → q x = true := hpq x (List.mem_cons_self x t)
        have hrec := ih (fun a hat hpa => hpq a (List.mem_cons_of_mem _ hat) hpa) hbt
        cases hpx : p x with
        | false =>
            cases hqx : q x with
            | false => simp [List.countP_cons, hpx, hqx]; omega
            | true => simp [List.countP_cons, hpx, hqx]; omega
        | true =>
            have hqx := hx hpx
            simp [List.countP_cons, hpx, hqx]
            omega

/-- The keyword-boost fold is two points per matched keyword. -/
lemma foldl_boost (p : String → Bool) :
    ∀ (l : List String) (acc : ℕ),
      l.foldl (fun a kw => if p kw then a + 2 else a) acc = acc + 2 * l.countP p := by
  intro l
  induction l with
  | nil => intro acc; simp
  | cons x t ih =>
      intro acc
      simp only [List.foldl_cons, List.countP_cons]
      cases hx : p x with
      | false => simp [hx, ih]
      | true => simp [hx, ih]; omega

/-- Function `symptomScore` counts two points per matched keyword. -/
lemma symptomScore_eq (sym : List Char) :
    symptomScore sym = 2 * dangerous_keywords.countP (fun kw => hasSubstr kw.data sym) := by
  unfold symptomScore
  rw [foldl_boost]
  omega

/-- Claim C1: for a 7-field vitals record whose used fields parse, the
dispatch criticality decision computes total_risk as the four-vital score
plus 2 points per dangerous-keyword substring match (not deduplicated:
any text containing "severe pain" also matches "severe" and collects at
least 4 points), and thresholds it: at least 6 gives the critical
prediction with critical=true, at least 3 the serious prediction with
critical=true, otherwise the stable prediction with critical=false. -/
theorem claim1_dispatch_criticality (l : List VStr) (s : String)
    (pv : ParsedVitals) (_hlen : l.length = 7) (hpv : parseVitals l = some pv) :
    (analyze_vitals_from_client l s =
      (if 6 ≤ vitalScore pv.resp pv.hr pv.bp_sys pv.o2 +
            2 * dangerous_keywords.countP (fun kw => hasSubstr kw.data (lowerChars s)) then
        ("Likely Critical — Immediate attention advised", true)
      else if 3 ≤ vitalScore pv.resp pv.hr pv.bp_sys pv.o2 +
            2 * dangerous_keywords.countP (fun kw => hasSubstr kw.data (lowerChars s)) then
        ("Potentially Serious — Monitor and expedite transport", true)
      else
        ("Stable / Non-critical", false)))
    ∧ (matchesKw "severe pain" s = true →
        4 ≤ 2 * dangerous_keywords.countP (fun kw => hasSubstr kw.data (lowerChars s))) := by
  constructor
  · simp only [analyze_vitals_from_client, hpv, symptomScore_eq]
  · intro h
    have hsev : hasSubstr "severe".data (lowerChars s) = true :=
      hasSubstr_of_listStartsWith _ _ (by decide) _ h
    have hcount : 2 ≤ dangerous_keywords.countP (fun kw => hasSubstr kw.data (lowerChars s)) :=
      two_le_countP_of_two_mem (a := "severe") (b := "severe pain")
        (by decide) (by decide) (by decide) hsev h
    omega

/-- Witness for C1: the record [40,120,80,75,98,99,16] with symptom text
"severe pain" scores 1 + 4 = 5 and lands in the serious tier. -/
theorem claim1_dispatch_criticality_witness :
    vitalsW.length = 7 ∧
    parseVitals vitalsW = some ⟨40, 120, 75, 98, 16, 99⟩ ∧
    analyze_vitals_from_client vitalsW "severe pain" =
      ("Potentially Serious — Monitor and expedite transport", true) :=
  ⟨by decide, by decide,
    ((claim1_dispatch_criticality vitalsW "severe pain" ⟨40, 120, 75, 98, 16, 99⟩
      (by decide) (by decide)).1).trans (by decide)⟩

/-- Claim C6 counterexample: the early-warning score of the example
record ["40","120","80","75","98","98.6","16"] is not 0 (the
respiratory rate 16 exceeds 15 and contributes one point). -/
theorem claim6_counterexample : ¬ (calculate_mews_score vitalsC6 = 0) := by
  decide

/-- Claim C6 (amended): the early-warning score of the vitals list
["40","120","80","75","98","98.6","16"] equals 1. -/
theorem claim6_mews_example : calculate_mews_score vitalsC6 = 1 := by
  decide

/-- Claim C8: with the vitals fixed, if the second text matches every dangerous
keyword that s matches plus at least one more, the total risk grows by at
least 2, the prediction tier never downgrades, and critical=true is
preserved. -/
theorem claim8_symptom_monotonic (l : List VStr) (s s' : String)
    (hsub : ∀ kw ∈ dangerous_keywords, matchesKw kw s = true → matchesKw kw s' = true)
    (hextra : ∃ kw ∈ dangerous_keywords, matchesKw kw s' = true ∧ matchesKw kw s = false) :
    (∀ pv : ParsedVitals, parseVitals l = some pv →
      vitalScore pv.resp pv.hr pv.bp_sys pv.o2 + symptomScore (lowerChars s) + 2 ≤
      vitalScore pv.resp pv.hr pv.bp_sys pv.o2 + symptomScore (lowerChars s'))
    ∧ tier (analyze_vitals_from_client l s) ≤ tier (analyze_vitals_from_client l s')
    ∧ ((analyze_vitals_from_client l s).2 = true →
        (analyze_vitals_from_client l s').2 = true) := by
  obtain ⟨b, hbmem, hqb, hpb⟩ := hextra
  have hcount : dangerous_keywords.countP (fun kw => hasSubstr kw.data (lowerChars s)) + 1 ≤
      dangerous_keywords.countP (fun kw => hasSubstr kw.data (lowerChars s')) :=
    countP_succ_le_of_extra (fun a ha hpa => hsub a ha hpa) hbmem hqb hpb
  have key : symptomScore (lowerChars s) + 2 ≤ symptomScore (lowerChars s') := by
    rw [symptomScore_eq, symptomScore_eq]
    omega
  have hmain : tier (analyze_vitals_from_client l s) ≤ tier (analyze_vitals_from_client l s')
      ∧ ((analyze_vitals_from_client l s).2 = true →
          (analyze_vitals_from_client l s').2 = true) := by
    cases hp : parseVitals l with
    | none => simp [analyze_vitals_from_client, hp, tier]
    | some pv =>
        simp only [analyze_vitals_from_client, hp]
        constructor
        · split_ifs <;> simp [tier] <;> omega
        · split_ifs <;> simp <;> omega
  exact ⟨fun pv _ => by omega, hmain.1, hmain.2⟩

/-- Witness for C8: the empty symptom text against "unconscious" on a
concrete record. -/
theorem claim8_symptom_monotonic_witness :
    tier (analyze_vitals_from_client vitalsW "") ≤
      tier (analyze_vitals_from_client vitalsW "unconscious") :=
  (claim8_symptom_monotonic vitalsW "" "unconscious" (by decide) (by decide)).2.1

/-- The Python `min` fold picks an element of the list that is minimal
for `routeCost`, and is the first such element: everything before it in
the iteration order costs strictly more. -/
lemma minFold_spec : ∀ (t : List Hospital) (b : Hospital),
    ∃ l1 l2, b :: t = l1 ++ minFold b t :: l2
      ∧ (∀ h ∈ b :: t, routeCost (minFold b t) ≤ routeCost h)
      ∧ (∀ h ∈ l1, routeCost (minFold b t) < routeCost h) := by
  intro t
  induction t with
  | nil =>
      intro b
      exact ⟨[], [], by simp [minFold], by simp [minFold], by simp⟩
  | cons x t ih =>
      intro b
      have hstep : minFold b (x :: t) = minFold (if routeCost x < routeCost b then x else b) t := by
        simp [minFold, List.foldl_cons]
      by_cases hc : routeCost x < routeCost b
      · obtain ⟨l1, l2, hdec, hmin, hfirst⟩ := ih x
        rw [if_pos hc] at hstep
        rw [hstep]
        refine ⟨b :: l1, l2, by rw [List.cons_append, ← hdec], ?_, ?_⟩
        · intro h hh
          rcases List.mem_cons.mp hh with rfl | hh'
          · have := hmin x (List.mem_cons_self x t)
            linarith
          · exact hmin h hh'
        · intro h hh
          rcases List.mem_cons.mp hh with rfl | hh'
          · have := hmin x (List.mem_cons_self x t)
            linarith
          · exact hfirst h hh'
      · obtain ⟨l1, l2, hdec, hmin, hfirst⟩ := ih b
        rw [if_neg hc] at hstep
        rw [hstep]
        have hbx : routeCost b ≤ routeCost x := le_of_not_lt hc
        cases l1 with
        | nil =>
            simp only [List.nil_append] at hdec
            have hb : b = minFold b t := (List.cons.injEq _ _ _ _).mp hdec |>.1
            have ht : t = l2 := (List.cons.injEq _ _ _ _).mp hdec |>.2
            refine ⟨[], x :: t, ?_, ?_, by simp⟩
            · simp only [List.nil_append]
              rw [← hb]
            · intro h hh
              rcases List.mem_cons.mp hh with rfl | hh'
              · rw [← hb]
              · rcases List.mem_cons.mp hh' with rfl | hh''
                · rw [← hb]; exact hbx
                · exact hmin h (by rw [hdec]; exact List.mem_cons_of_mem _ (ht ▸ hh''))
        | cons b' l1' =>
            have hb : b = b' := (List.cons.injEq _ _ _ _).mp hdec |>.1
            have ht : t = l1' ++ minFold b t :: l2 := (List.cons.injEq _ _ _ _).mp hdec |>.2
            have hmb : routeCost (minFold b t) < routeCost b := by
              have := hfirst b' (List.mem_cons_self b' l1')
              rw [← hb] at this
              exact this
            refine ⟨b :: x :: l1', l2, ?_, ?_, ?_⟩
            · simp only [List.cons_append]
              rw [← ht]
            · intro h hh
              rcases List.mem_cons.mp hh with rfl | hh'
              · exact le_of_lt hmb
              · rcases List.mem_cons.mp hh' with rfl | hh''
                · linarith
                · exact hmin h (List.mem_cons_of_mem _ hh'')
            · intro h hh
              rcases List.mem_cons.mp hh with rfl | hh'
              · exact hmb
              · rcases List.mem_cons.mp hh' with rfl | hh''
                · linarith
                · exact hfirst h (hb ▸ List.mem_cons_of_mem _ hh'')

/-- Claim C3: on a non-empty eligible set, routing deterministically
returns the hospital minimizing distance_km * traffic_factor, ties broken
by iteration order (everything earlier costs strictly more), and the
simulated ETA of the selected hospital is
round((distance_km / 0.67) * traffic_factor). -/
theorem claim3_routing_selection (elig : List Hospital) (hne : elig ≠ []) :
    ∃ best l1 l2, pyMin elig = some best
      ∧ elig = l1 ++ best :: l2
      ∧ (∀ h ∈ elig, routeCost best ≤ routeCost h)
      ∧ (∀ h ∈ l1, routeCost best < routeCost h)
      ∧ routeEta best = pyRound (best.distance_km / (67/100) * best.traffic_factor) := by
  cases elig with
  | nil => exact absurd rfl hne
  | cons b t =>
      obtain ⟨l1, l2, hdec, hmin, hfirst⟩ := minFold_spec t b
      exact ⟨minFold b t, l1, l2, rfl, hdec, hmin, hfirst, rfl⟩

/-- Witness for C3 on a concrete two-hospital eligible set. -/
theorem claim3_routing_selection_witness :
    (dir2 ≠ []) ∧
    (∃ best l1 l2, pyMin dir2 = some best
      ∧ dir2 = l1 ++ best :: l2
      ∧ (∀ h ∈ dir2, routeCost best ≤ routeCost h)
      ∧ (∀ h ∈ l1, routeCost best < routeCost h)
      ∧ routeEta best = pyRound (best.distance_km / (67/100) * best.traffic_factor)) :=
  ⟨by simp [dir2], claim3_routing_selection dir2 (by simp [dir2])⟩

/-- A successful Python `min` returns a member that minimizes the cost. -/
lemma pyMin_some_spec (l : List Hospital) (best : Hospital)
    (h : pyMin l = some best) :
    best ∈ l ∧ ∀ x ∈ l, routeCost best ≤ routeCost x := by
  cases l with
  | nil => simp [pyMin] at h
  | cons b t =>
      simp only [pyMin, Option.some.injEq] at h
      subst h
      obtain ⟨l1, l2, hdec, hmin, _⟩ := minFold_spec t b
      refine ⟨?_, hmin⟩
      rw [hdec]
      exact List.mem_append_right _ (List.mem_cons_self _ _)

/-- Case analysis on one `suggest_alternative` call. -/
lemma sa_spec (dir : List Hospital) (c : CaseRec) (cur : Option String) :
    (pyMin (dir.filter fun h => h.name ∉ saHistory c cur) = none ∧
      suggest_alternative dir c cur = (SAResult.noRemaining, c)) ∨
    (∃ best, pyMin (dir.filter fun h => h.name ∉ saHistory c cur) = some best ∧
      suggest_alternative dir c cur = (SAResult.ok best (routeEta best),
        { c with
            hospital_name := some best.name
            hospital_specialty := some best.specialty
            distance_km := some best.distance_km
            simulated_eta_min := some (routeEta best)
            acceptance_status := some "AWAITING RESPONSE"
            rejected_history := saHistory c cur })) := by
  cases hm : pyMin (dir.filter fun h => h.name ∉ saHistory c cur) with
  | none =>
      left
      refine ⟨rfl, ?_⟩
      simp only [suggest_alternative]
      rw [hm]
  | some best =>
      right
      refine ⟨best, rfl, ?_⟩
      simp only [suggest_alternative]
      rw [hm]

/-- The stored rejection history only grows on a call. -/
lemma saHistory_sub (c : CaseRec) (cur : Option String) :
    c.rejected_history ⊆ saHistory c cur := by
  cases cur with
  | none => exact fun a ha => ha
  | some n =>
      simp only [saHistory]
      split_ifs with h1 h2
      · exact fun a ha => ha
      · exact fun a ha => ha
      · exact List.subset_append_left _ _

/-- A non-empty rejected name passed to a call lands in the updated
history. -/
lemma mem_saHistory (c : CaseRec) (A : String) (hA : A ≠ "") :
    A ∈ saHistory c (some A) := by
  simp only [saHistory]
  rw [if_neg hA]
  split_ifs with h
  · exact h
  · exact List.mem_append_right _ (List.mem_cons_self _ _)

/-- One call never shrinks the persisted rejection history. -/
lemma sa_snd_hist_sub (dir : List Hospital) (c : CaseRec) (cur : Option String) :
    c.rejected_history ⊆ (suggest_alternative dir c cur).2.rejected_history := by
  rcases sa_spec dir c cur with ⟨_, heq⟩ | ⟨best, _, heq⟩
  · rw [heq]
    exact fun a ha => ha
  · rw [heq]
    exact saHistory_sub c cur

/-- A call sequence never shrinks the persisted rejection history. -/
lemma runSA_hist_sub (dir : List Hospital) :
    ∀ (calls : List (Option String)) (c : CaseRec),
      c.rejected_history ⊆ (runSA dir c calls).rejected_history := by
  intro calls
  induction calls with
  | nil => intro c; exact fun a ha => ha
  | cons cur rest ih =>
      intro c
      exact (sa_snd_hist_sub dir c cur).trans (ih _)

/-- Running a concatenated call sequence runs the pieces in order. -/
lemma runSA_append (dir : List Hospital) :
    ∀ (l1 l2 : List (Option String)) (c : CaseRec),
      runSA dir c (l1 ++ l2) = runSA dir (runSA dir c l1) l2 := by
  intro l1
  induction l1 with
  | nil => intro l2 c; rfl
  | cons cur rest ih =>
      intro l2 c
      simp only [List.cons_append, runSA]
      exact ih l2 _

/-- A successful call persists the updated history. -/
lemma sa_ok_state (dir : List Hospital) (c : CaseRec) (cur : Option String)
    (best : Hospital) (eta : ℤ)
    (h : (suggest_alternative dir c cur).1 = SAResult.ok best eta) :
    (suggest_alternative dir c cur).2.rejected_history = saHistory c cur ∧
    best.name ∉ saHistory c cur := by
  rcases sa_spec dir c cur with ⟨_, heq⟩ | ⟨b, hm, heq⟩
  · rw [heq] at h
    exact absurd h (by simp)
  · have hb : b = best ∧ routeEta b = eta := by
      rw [heq] at h
      simpa using h
    obtain ⟨hb1, -⟩ := hb
    subst hb1
    have hmem := (pyMin_some_spec _ _ hm).1
    have hname : b.name ∉ saHistory c cur := by
      have := (List.mem_filter.mp hmem).2
      simpa using this
    rw [heq]
    exact ⟨rfl, hname⟩

/-- Claim C2 counterexample: rejecting the last remaining hospital fails
with 404 and does not persist that rejection, so a later call on the same
case selects the very hospital whose rejection was reported.  Concretely,
on the two-hospital directory with Alpha already rejected, passing Beta
exhausts the network (history not saved), and a following call selects
Beta again. -/
theorem claim2_counterexample :
    (suggest_alternative dir2 caseRejAlpha (some "Beta")).1 = SAResult.noRemaining
    ∧ (suggest_alternative dir2
        ((suggest_alternative dir2 caseRejAlpha (some "Beta")).2) none).1
        = SAResult.ok hBeta (routeEta hBeta)
    ∧ hBeta.name = "Beta" :=
  ⟨rfl, rfl, rfl⟩

/-- Claim C2 (amended): once a suggest-alternative call that received A as
current_hospital succeeds (persisting the rejection), no later successful
call on the same case selects A; and the eligible set of every successful
call is the full directory minus the names in the updated rejection
history, with no specialty filter — the selected hospital is cost-minimal
over exactly that set. -/
theorem claim2_rejection_no_repeat :
    (∀ (dir : List Hospital) (c0 : CaseRec) (calls : List (Option String))
        (i j : ℕ) (A : String) (curj : Option String) (bi bj : Hospital) (ei ej : ℤ),
      i < j → A ≠ "" →
      calls[i]? = some (some A) →
      calls[j]? = some curj →
      (suggest_alternative dir (runSA dir c0 (calls.take i)) (some A)).1 = SAResult.ok bi ei →
      (suggest_alternative dir (runSA dir c0 (calls.take j)) curj).1 = SAResult.ok bj ej →
      bj.name ≠ A)
    ∧ (∀ (dir : List Hospital) (c : CaseRec) (cur : Option String)
        (best : Hospital) (eta : ℤ),
      (suggest_alternative dir c cur).1 = SAResult.ok best eta →
      best ∈ dir.filter (fun h => h.name ∉ saHistory c cur)
      ∧ ∀ h ∈ dir.filter (fun h => h.name ∉ saHistory c cur),
          routeCost best ≤ routeCost h) := by
  constructor
  · intro dir c0 calls i j A curj bi bj ei ej hij hA hi hj hoki hokj
    set si := runSA dir c0 (calls.take i) with hsi
    set sj := runSA dir c0 (calls.take j) with hsj
    -- after the successful call at i, A is in the persisted history
    have hstep : runSA dir c0 (calls.take (i + 1)) =
        (suggest_alternative dir si (some A)).2 := by
      rw [List.take_succ, hi]
      rw [runSA_append]
      rfl
    have hAin : A ∈ (runSA dir c0 (calls.take (i + 1))).rejected_history := by
      rw [hstep, (sa_ok_state dir si (some A) bi ei hoki).1]
      exact mem_saHistory si A hA
    -- the history can only grow from step i+1 to step j
    have htake : calls.take j = calls.take (i + 1) ++ (calls.drop (i + 1)).take (j - (i + 1)) := by
      rw [← List.take_add]
      congr 1
      omega
    have hAj : A ∈ sj.rejected_history := by
      rw [hsj, htake, runSA_append]
      exact runSA_hist_sub dir _ _ hAin
    -- the winner of the successful call at j avoids the updated history
    have hnot := (sa_ok_state dir sj curj bj ej hokj).2
    intro hcontra
    exact hnot (saHistory_sub sj curj (hcontra ▸ hAj))
  · intro dir c cur best eta h
    rcases sa_spec dir c cur with ⟨_, heq⟩ | ⟨b, hm, heq⟩
    · rw [heq] at h
      exact absurd h (by simp)
    · have hb : b = best ∧ routeEta b = eta := by
        rw [heq] at h
        simpa using h
      obtain ⟨hb1, -⟩ := hb
      subst hb1
      exact pyMin_some_spec _ _ hm

/-- Witness for the amended C2 on a concrete two-call trace over the
two-hospital directory. -/
theorem claim2_rejection_no_repeat_witness : hBeta.name ≠ "Alpha" :=
  claim2_rejection_no_repeat.1 dir2 caseEmpty [some "Alpha", some "Gamma"]
    0 1 "Alpha" (some "Gamma") hBeta hBeta (routeEta hBeta) (routeEta hBeta)
    (by decide) (by decide) rfl rfl rfl rfl

/-- Looking up after a status write returns the old record with only the
acceptance status overwritten. -/
lemma storeLookup_setStatus (s : Store) (caseId : ℕ) (st : Option String) :
    storeLookup (setStatus s caseId st) caseId =
      (storeLookup s caseId).map (fun c => { c with acceptance_status := st }) := by
  induction s with
  | nil => rfl
  | cons p rest ih =>
      simp only [setStatus, List.map_cons, storeLookup] at ih ⊢
      by_cases h : p.1 = caseId
      · simp [h]
      · simp only [h, if_neg, if_false, ite_false]
        simpa [setStatus] using ih

/-- Claim C4: the acceptance endpoint rejects with 400, modifying
nothing, any status outside the three-value whitelist — the missing field
and "AWAITING RESPONSE" included — and answers 404, modifying nothing,
when the status is valid but the case id is unknown. -/
theorem claim4_update_acceptance_validation (hstore astore : Store)
    (caseId : ℕ) (status : Option String) (pushOk : Bool) :
    (validStatus status = false →
      update_acceptance hstore astore caseId status pushOk = (400, hstore, astore))
    ∧ (validStatus status = true → storeLookup hstore caseId = none →
      update_acceptance hstore astore caseId status pushOk = (404, hstore, astore))
    ∧ validStatus (some "AWAITING RESPONSE") = false
    ∧ validStatus none = false := by
  refine ⟨?_, ?_, by decide, by decide⟩
  · intro hv
    simp [update_acceptance, hv]
  · intro hv hl
    simp [update_acceptance, hv, hl]

/-- Witness for C4: "AWAITING RESPONSE" is refused with 400, and a valid
status on an unknown case id yields 404, stores untouched. -/
theorem claim4_update_acceptance_validation_witness :
    update_acceptance [] [] 7 (some "AWAITING RESPONSE") true = (400, [], [])
    ∧ update_acceptance [(1, caseEmpty)] [] 7 (some "ACCEPTED") true
        = (404, [(1, caseEmpty)], []) :=
  ⟨(claim4_update_acceptance_validation [] [] 7 (some "AWAITING RESPONSE") true).1
      (by decide),
   (claim4_update_acceptance_validation [(1, caseEmpty)] [] 7 (some "ACCEPTED") true).2.1
      (by decide) (by decide)⟩

/-- Claim C5: once the status is valid and the case exists, the
hospital-side commit goes through and the endpoint returns 200 whether or
not the push to the ambulance server succeeds; a push failure leaves the
ambulance store stale but never rolls the hospital-side write back or
fails the request. -/
theorem claim5_commit_kept_on_push_failure (hstore astore : Store)
    (caseId : ℕ) (status : Option String) (c : CaseRec)
    (hv : validStatus status = true) (hc : storeLookup hstore caseId = some c) :
    ∀ pushOk : Bool,
      update_acceptance hstore astore caseId status pushOk =
        (200, setStatus hstore caseId status,
          if pushOk then (receive_hospital_update astore caseId status).2 else astore) := by
  intro pushOk
  simp [update_acceptance, hv, hc]

/-- Witness for C5: a failed push (pushOk = false) still returns 200 with
the hospital-side store committed. -/
theorem claim5_commit_kept_on_push_failure_witness :
    update_acceptance [(1, caseEmpty)] [] 1 (some "REJECTED") false =
      (200, setStatus [(1, caseEmpty)] 1 (some "REJECTED"), []) :=
  claim5_commit_kept_on_push_failure [(1, caseEmpty)] [] 1 (some "REJECTED")
    caseEmpty (by decide) (by decide) false

/-- Claim C10: the ambulance-side receive endpoint performs no validation
at all — whatever status value arrives (any string outside the enum, or
null when the field is absent) is stored verbatim on the existing case
and 200 is returned. -/
theorem claim10_receive_update_no_validation (astore : Store) (caseId : ℕ)
    (status : Option String) (c : CaseRec)
    (hc : storeLookup astore caseId = some c) :
    receive_hospital_update astore caseId status = (200, setStatus astore caseId status)
    ∧ storeLookup (receive_hospital_update astore caseId status).2 caseId =
        some { c with acceptance_status := status } := by
  have h1 : receive_hospital_update astore caseId status
      = (200, setStatus astore caseId status) := by
    simp [receive_hospital_update, hc]
  refine ⟨h1, ?_⟩
  rw [h1]
  simp [storeLookup_setStatus, hc]

/-- Witness for C10: a value far outside the enum is stored verbatim with
a 200 response. -/
theorem claim10_receive_update_no_validation_witness :
    receive_hospital_update [(3, caseEmpty)] 3 (some "TOTALLY BOGUS") =
      (200, setStatus [(3, caseEmpty)] 3 (some "TOTALLY BOGUS")) :=
  (claim10_receive_update_no_validation [(3, caseEmpty)] 3 (some "TOTALLY BOGUS")
    caseEmpty (by decide)).1

/-- A parse failure on the respiratory-rate field aborts the whole
parsing block. -/
lemma parseVitals_none_of_resp (l : List VStr) (h : getField l 6 16 = none) :
    parseVitals l = none := by
  unfold parseVitals
  rw [h]
  rcases getField l 0 40 with _ | a <;>
    rcases getField l 1 120 with _ | bp <;>
    rcases getField l 3 80 with _ | hr <;>
    rcases getField l 4 98 with _ | o2 <;>
    rcases getField l 5 (366/10) with _ | temp <;>
    rfl

/-- A parse failure on the respiratory-rate field zeroes the MEWS-like
score. -/
lemma mews_zero_of_resp (l : List VStr) (h : getFloatField l 6 = none) :
    calculate_mews_score l = 0 := by
  unfold calculate_mews_score
  rw [h]
  rcases getFloatField l 1 with _ | bp <;>
    rcases getFloatField l 3 with _ | hr <;>
    rcases getFloatField l 4 with _ | o2 <;>
    rfl

/-- Claim C7 counterexample: a one-field vitals record, after the "N/A"
padding of analyze_data, is scored as UNDETERMINED — not with the
per-field defaults, which (applied to the unpadded record) would yield
the Stable prediction. -/
theorem claim7_counterexample :
    analyze_vitals_from_client (padTo7 [VStr.num 50]) "" = ("UNDETERMINED", false)
    ∧ analyze_vitals_from_client [VStr.num 50] "" = ("Stable / Non-critical", false)
    ∧ ("UNDETERMINED" : String) ≠ "Stable / Non-critical" := by
  refine ⟨?_, by decide, by decide⟩
  decide

/-- Claim C7 (amended): a vitals record with fewer than 7 fields is
persisted padded to exactly 7 fields with the sentinel "N/A"; scoring
then never raises but degrades to the safe defaults — prediction
("UNDETERMINED", false) and MEWS score 0 — because the "N/A" pad fields
are parse failures, not absent fields, so the per-field numeric defaults
are not applied on this path. -/
theorem claim7_padding_degrades (l : List VStr) (s : String) (h : l.length < 7) :
    (padTo7 l).length = 7
    ∧ (padTo7 l)[6]? = some (VStr.other "N/A")
    ∧ analyze_vitals_from_client (padTo7 l) s = ("UNDETERMINED", false)
    ∧ calculate_mews_score (padTo7 l) = 0 := by
  have hle : l.length ≤ 6 := by omega
  have hpad : padTo7 l = l ++ List.replicate (7 - l.length) (VStr.other "N/A") := by
    simp [padTo7, h]
  have hidx : (padTo7 l)[6]? = some (VStr.other "N/A") := by
    rw [hpad, List.getElem?_append_right hle, List.getElem?_replicate,
      if_pos (by omega)]
  have hfield : getField (padTo7 l) 6 16 = none := by
    simp [getField, hidx]
  have hfloat : getFloatField (padTo7 l) 6 = none := by
    simp [getFloatField, hidx]
  refine ⟨?_, hidx, ?_, mews_zero_of_resp _ hfloat⟩
  · rw [hpad]
    simp only [List.length_append, List.length_replicate]
    omega
  · unfold analyze_vitals_from_client
    rw [parseVitals_none_of_resp _ hfield]

/-- Witness for the amended C7 at the one-field record [50]. -/
theorem claim7_padding_degrades_witness :
    ([VStr.num 50] : List VStr).length < 7
    ∧ ((padTo7 [VStr.num 50]).length = 7
      ∧ (padTo7 [VStr.num 50])[6]? = some (VStr.other "N/A")
      ∧ analyze_vitals_from_client (padTo7 [VStr.num 50]) "" = ("UNDETERMINED", false)
      ∧ calculate_mews_score (padTo7 [VStr.num 50]) = 0) :=
  ⟨by decide, claim7_padding_degrades [VStr.num 50] "" (by decide)⟩

/-- A rounded noisy sample stays within noise bound plus one half of the
base reading. -/
lemma abs_pyRound_shift (x δ B : ℚ) (hδ : |δ| ≤ B) :
    |(pyRound (x + δ) : ℚ) - x| ≤ B + 1/2 := by
  have h := abs_pyRound_sub (x + δ)
  have hsplit : (pyRound (x + δ) : ℚ) - x = ((pyRound (x + δ) : ℚ) - (x + δ)) + δ := by
    ring
  rw [hsplit]
  calc |((pyRound (x + δ) : ℚ) - (x + δ)) + δ|
      ≤ |(pyRound (x + δ) : ℚ) - (x + δ)| + |δ| := abs_add _ _
    _ ≤ 1/2 + B := add_le_add h hδ
    _ = B + 1/2 := by ring

/-- A decimal-rounded noisy sample stays within noise bound plus one
twentieth of the base reading. -/
lemma abs_pyRound1_shift (x δ B : ℚ) (hδ : |δ| ≤ B) :
    |pyRound1 (x + δ) - x| ≤ B + 1/20 := by
  have h := abs_pyRound1_sub (x + δ)
  have hsplit : pyRound1 (x + δ) - x = (pyRound1 (x + δ) - (x + δ)) + δ := by
    ring
  rw [hsplit]
  calc |(pyRound1 (x + δ) - (x + δ)) + δ|
      ≤ |pyRound1 (x + δ) - (x + δ)| + |δ| := abs_add _ _
    _ ≤ 1/20 + B := add_le_add h hδ
    _ = B + 1/20 := by ring

/-- Claim C9 counterexample: with heart rate "80.5" (and zero noise
draws), every generated heart-rate sample — the 5th included — is the
integer 80, so the most recent sample does not equal the exact current
reading 80.5: `int(hr_base)` truncates. -/
theorem claim9_counterexample :
    getFloatField vitalsC9 3 = some (161/2)
    ∧ generate_vitals_trend vitalsC9 n0 n0 n0 =
        some { time_offsets := [20, 15, 10, 5, 0]
               hr_trend := [80, 80, 80, 80, 80]
               bp_sys_trend := [120, 120, 120, 120, 120]
               o2_trend := [98, 98, 98, 98, 98] }
    ∧ ((80 : ℚ) ≠ 161/2) := by
  have hhr : getFloatField vitalsC9 3 = some (161/2) := rfl
  have hbp : getFloatField vitalsC9 1 = some 120 := rfl
  have ho2 : getFloatField vitalsC9 4 = some 98 := rfl
  refine ⟨hhr, ?_, by norm_num⟩
  have eh : pyRound ((161:ℚ)/2 + 0) = 80 :=
    pyRound_eq_of_half_even 80 _ (by norm_num) (by decide)
  have eh5 : ratTrunc ((161:ℚ)/2) = 80 := by
    unfold ratTrunc
    rw [if_pos (by norm_num)]
    exact Int.floor_eq_iff.mpr ⟨by norm_num, by norm_num⟩
  have eb : pyRound ((120:ℚ) + 0) = 120 :=
    pyRound_eq_of_lt_half 120 _ (by norm_num) (by norm_num)
  have eb5 : ratTrunc (120:ℚ) = 120 := by
    unfold ratTrunc
    rw [if_pos (by norm_num)]
    exact Int.floor_eq_iff.mpr ⟨by norm_num, by norm_num⟩
  have eo10 : pyRound ((10:ℚ) * (98 + 0)) = 980 :=
    pyRound_eq_of_lt_half 980 _ (by norm_num) (by norm_num)
  have eo : pyRound1 ((98:ℚ) + 0) = 98 := by
    unfold pyRound1
    rw [eo10]
    norm_num
  simp only [generate_vitals_trend, hhr, hbp, ho2, n0]
  rw [eh, eh5, eb, eb5, eo]

/-- Claim C9 (amended): when heart rate, systolic BP and SpO2 parse, the
trend has exactly 5 ordered samples at offsets 20, 15, 10, 5, 0 minutes
before now; the first 4 values are the current reading perturbed by the
bounded uniform draws (±4 bpm, ±5 mmHg, ±1 point, then rounded); the 5th
sample is the integer truncation of heart rate and systolic BP and the
exact SpO2 — equal to the exact current reading whenever that reading is
integral. -/
theorem claim9_trend (l : List VStr) (nHr nBp nO2 : Fin 4 → ℚ)
    (hr bp o2 : ℚ)
    (hhr : getFloatField l 3 = some hr) (hbp : getFloatField l 1 = some bp)
    (ho2 : getFloatField l 4 = some o2)
    (bHr : ∀ i, |nHr i| ≤ 4) (bBp : ∀ i, |nBp i| ≤ 5)
    (bO2 : ∀ i, |nO2 i| ≤ 1) :
    ∃ t, generate_vitals_trend l nHr nBp nO2 = some t
      ∧ t.time_offsets = [20, 15, 10, 5, 0]
      ∧ t.hr_trend.length = 5 ∧ t.bp_sys_trend.length = 5 ∧ t.o2_trend.length = 5
      ∧ (∀ i : Fin 4, ∃ z : ℤ, t.hr_trend[(i : ℕ)]? = some z ∧ |(z : ℚ) - hr| ≤ 4 + 1/2)
      ∧ (∀ i : Fin 4, ∃ z : ℤ, t.bp_sys_trend[(i : ℕ)]? = some z ∧ |(z : ℚ) - bp| ≤ 5 + 1/2)
      ∧ (∀ i : Fin 4, ∃ q : ℚ, t.o2_trend[(i : ℕ)]? = some q ∧ |q - o2| ≤ 1 + 1/20)
      ∧ t.hr_trend.getLast? = some (ratTrunc hr)
      ∧ t.bp_sys_trend.getLast? = some (ratTrunc bp)
      ∧ t.o2_trend.getLast? = some o2
      ∧ (∀ m : ℤ, hr = (m : ℚ) → t.hr_trend.getLast? = some m)
      ∧ (∀ m : ℤ, bp = (m : ℚ) → t.bp_sys_trend.getLast? = some m) := by
  simp only [generate_vitals_trend, hhr, hbp, ho2]
  refine ⟨_, rfl, rfl, rfl, rfl, rfl, ?_, ?_, ?_, rfl, rfl, rfl, ?_, ?_⟩
  · intro i
    fin_cases i <;> exact ⟨_, rfl, abs_pyRound_shift hr _ 4 (bHr _)⟩
  · intro i
    fin_cases i <;> exact ⟨_, rfl, abs_pyRound_shift bp _ 5 (bBp _)⟩
  · intro i
    fin_cases i <;> exact ⟨_, rfl, abs_pyRound1_shift o2 _ 1 (bO2 _)⟩
  · intro m hm
    have hlast : ([pyRound (hr + nHr 0), pyRound (hr + nHr 1), pyRound (hr + nHr 2),
        pyRound (hr + nHr 3), ratTrunc hr] : List ℤ).getLast? = some (ratTrunc hr) := rfl
    rw [hlast, hm, ratTrunc_intCast]
  · intro m hm
    have hlast : ([pyRound (bp + nBp 0), pyRound (bp + nBp 1), pyRound (bp + nBp 2),
        pyRound (bp + nBp 3), ratTrunc bp] : List ℤ).getLast? = some (ratTrunc bp) := rfl
    rw [hlast, hm, ratTrunc_intCast]

/-- Witness for the amended C9 at a concrete record with zero noise. -/
theorem claim9_trend_witness :
    ∃ t, generate_vitals_trend vitalsW n0 n0 n0 = some t
      ∧ t.time_offsets = [20, 15, 10, 5, 0] := by
  obtain ⟨t, h1, h2, -⟩ := claim9_trend vitalsW n0 n0 n0 75 120 98 rfl rfl rfl
    (fun i => by norm_num [n0]) (fun i => by norm_num [n0]) (fun i => by norm_num [n0])
  exact ⟨t, h1, h2⟩
